import Mathlib

/-!
# Verification of the yay-friend version-resolution / cache / trust / gating pipeline

Shallow embedding of the Go sources of `aaronsb/yay-friend`:

* `internal/types` (severity ordinal and verdict data model),
* `internal/providers/claude.go` (verdict parsing: `parseSecurityEntropy`,
  the conversion step of `parseAnalysisResponse`),
* `internal/cmd/root.go` (`handleAnalysisResult` decision gate and the
  cache-consultation slice of `analyzeAndDecide`),
* `internal/cache` (`GetCachedAnalysis`, `SaveAnalysis`, `CleanExpiredCache`,
  `getCacheFilePath`, `sanitizePackageName`),
* `internal/aur/git.go` (`GetLatestCommitHash` response handling,
  `ValidateCommitHash`),
* `internal/trust` (`calculateTrustFactors`, `calculateRiskIndicators`,
  `calculateOverallTrustScore`).

Modelling conventions: Go `int`/`int64`/`time.Duration` (nanoseconds) become
`Int`; Go `float64` becomes `Rat` with decimal literals read exactly; Go
strings become Lean `String` (byte indexing coincides with character indexing
on the ASCII data these functions handle); `time.Time` instants become `Int`
unix timestamps; fallible Go functions return `Except`/`Option`; a Go runtime
panic is an explicit constructor of the result type.  The on-disk JSON cache
format is modelled by a JSON value AST together with explicit encoders and
decoders mirroring Go's `encoding/json` field tags (including `omitempty`).
-/

namespace YayFriend

/-! ## Severity ordinal (`internal/types/types.go`)

Go: `type SecurityEntropy int` with constants `EntropyMinimal = 0` ..
`EntropyCritical = 4`; `SecurityLevel` is an alias of the same type. -/

abbrev SecurityEntropy := Int

def EntropyMinimal : SecurityEntropy := 0
def EntropyLow : SecurityEntropy := 1
def EntropyModerate : SecurityEntropy := 2
def EntropyHigh : SecurityEntropy := 3
def EntropyCritical : SecurityEntropy := 4

/-- Go `strings.ToUpper` restricted to its ASCII behaviour (all severity
labels compared by the source are ASCII). -/
def goToUpper (s : String) : String := String.mk (s.data.map Char.toUpper)

/-- `parseSecurityEntropy` (`internal/providers/claude.go`): switch on the
upper-cased label; unrecognized labels fall through to `EntropyModerate`. -/
def parseSecurityEntropy (level : String) : SecurityEntropy :=
  if goToUpper level = "MINIMAL" ∨ goToUpper level = "SAFE" then EntropyMinimal
  else if goToUpper level = "LOW" then EntropyLow
  else if goToUpper level = "MODERATE" ∨ goToUpper level = "MEDIUM" then EntropyModerate
  else if goToUpper level = "HIGH" then EntropyHigh
  else if goToUpper level = "CRITICAL" then EntropyCritical
  else EntropyModerate

/-! ## Verdict data model (`internal/types/types.go`) -/

/-- `types.SecurityFinding`.  Field names follow the Go struct; `lineNumber`
is a Go `int`. -/
structure SecurityFinding where
  type : String
  entropy : SecurityEntropy
  severity : SecurityEntropy
  description : String
  lineNumber : Int
  context : String
  suggestion : String
  entropyNotes : String
deriving DecidableEq, Repr

/-- `types.SecurityAnalysis`.  `analyzedAt` is a `time.Time` instant
(modelled as an integer timestamp); `predictabilityScore` is a `float64`
(modelled as `Rat`). -/
structure SecurityAnalysis where
  packageName : String
  overallEntropy : SecurityEntropy
  overallLevel : SecurityEntropy
  findings : List SecurityFinding
  summary : String
  recommendation : String
  analyzedAt : Int
  provider : String
  entropyFactors : List String
  predictabilityScore : Rat
  educationalSummary : String
  securityLessons : List String
deriving DecidableEq, Repr

/-- The security-threshold slice of `types.Config` consumed by the gate. -/
structure SecurityThresholds where
  blockLevel : SecurityEntropy
  warnLevel : SecurityEntropy
  autoProceed : Bool
deriving DecidableEq, Repr

/-! ## Decision gate (`internal/cmd/root.go`, `handleAnalysisResult`)

The Go function prints the verdict and returns `error`: a "blocked by
security policy" error when `OverallLevel >= BlockLevel`, an
"installation cancelled by user" error when the warn threshold is met,
auto-proceed is off and the interactive response is neither "y" nor "Y",
and `nil` (approval) otherwise.  The interactive response read by
`fmt.Scanln` is an explicit argument here. -/

def handleAnalysisResult (analysis : SecurityAnalysis) (cfg : SecurityThresholds)
    (userResponse : String) : Except String Unit :=
  if analysis.overallLevel ≥ cfg.blockLevel then
    .error ("package " ++ analysis.packageName ++ " blocked by security policy")
  else if analysis.overallLevel ≥ cfg.warnLevel then
    if !cfg.autoProceed then
      if userResponse ≠ "y" ∧ userResponse ≠ "Y" then
        .error "installation cancelled by user"
      else
        .ok ()
    else
      .ok ()
  else
    .ok ()

/-- A fully concrete verdict used to instantiate the hypotheses of the
gate and parser theorems. -/
def demoAnalysis : SecurityAnalysis :=
  { packageName := "demo"
    overallEntropy := EntropyHigh
    overallLevel := EntropyHigh
    findings := []
    summary := "demo"
    recommendation := "PROCEED"
    analyzedAt := 0
    provider := "claude"
    entropyFactors := []
    predictabilityScore := 0
    educationalSummary := ""
    securityLessons := [] }

/-- **C1.** For every verdict severity and thresholds, if the severity is at
or above `blockLevel` (inclusive `≥`) then `handleAnalysisResult` returns the
BLOCKED outcome — the error naming the package as blocked by security policy —
regardless of `warnLevel` (even when `warnLevel > blockLevel`), of
`autoProceed`, and of the interactive response: the block comparison is
evaluated before the warn comparison. -/
theorem handleAnalysisResult_blocked_of_ge_blockLevel
    (analysis : SecurityAnalysis) (cfg : SecurityThresholds) (userResponse : String)
    (h : analysis.overallLevel ≥ cfg.blockLevel) :
    handleAnalysisResult analysis cfg userResponse =
      .error ("package " ++ analysis.packageName ++ " blocked by security policy") := by
  unfold handleAnalysisResult
  simp [h]

/-- Witness for C1: severity HIGH, `blockLevel = HIGH`, `warnLevel = CRITICAL`
(a warn threshold strictly above the block threshold) and a declining user
response still yield the blocked outcome. -/
theorem handleAnalysisResult_blocked_of_ge_blockLevel_witness :
    handleAnalysisResult demoAnalysis
        { blockLevel := EntropyHigh, warnLevel := EntropyCritical, autoProceed := false } "n" =
      .error ("package " ++ "demo" ++ " blocked by security policy") :=
  handleAnalysisResult_blocked_of_ge_blockLevel demoAnalysis
    { blockLevel := EntropyHigh, warnLevel := EntropyCritical, autoProceed := false } "n"
    (by decide)

/-- **C9.** `parseSecurityEntropy` is total (it is a Lean function on all of
`String`); every label whose upper-casing is outside the recognized set
{MINIMAL, SAFE, LOW, MODERATE, MEDIUM, HIGH, CRITICAL} maps to
`EntropyModerate`, and it returns `EntropyMinimal` exactly for the labels
MINIMAL and SAFE (case-insensitively). -/
theorem parseSecurityEntropy_default_moderate_and_minimal_iff (s : String) :
    (goToUpper s ∉
        (["MINIMAL", "SAFE", "LOW", "MODERATE", "MEDIUM", "HIGH", "CRITICAL"] : List String) →
      parseSecurityEntropy s = EntropyModerate) ∧
    (parseSecurityEntropy s = EntropyMinimal ↔
      (goToUpper s = "MINIMAL" ∨ goToUpper s = "SAFE")) := by
  unfold parseSecurityEntropy
  constructor
  · intro hne
    simp only [List.mem_cons, List.not_mem_nil, or_false] at hne
    push_neg at hne
    obtain ⟨h1, h2, h3, h4, h5, h6, h7⟩ := hne
    simp [h1, h2, h3, h4, h5, h6, h7]
  · split_ifs with h1 h2 h3 h4 h5 <;>
      simp_all [EntropyMinimal, EntropyLow, EntropyModerate, EntropyHigh, EntropyCritical]

/-- Witness for C9: the unrecognized label "bogus" parses to
`EntropyModerate`, not `EntropyMinimal`. -/
theorem parseSecurityEntropy_default_moderate_witness :
    parseSecurityEntropy "bogus" = EntropyModerate :=
  (parseSecurityEntropy_default_moderate_and_minimal_iff "bogus").1 (by decide)

/-! ## Trust scorer (`internal/trust/trust.go`)

Legacy severity aliases from `internal/types/types.go` used by the risk
indicators. -/

def SecurityLow : SecurityEntropy := EntropyLow
def SecurityMedium : SecurityEntropy := EntropyModerate
def SecurityHigh : SecurityEntropy := EntropyHigh

/-- One nanosecond is the unit of Go `time.Duration`; `nsPerDay` is
`time.Hour * 24`. -/
def nsPerDay : Int := 24 * 3600 * 1000000000

/-- `trust.RepositoryInfo`.  Durations (`RepoAge`, `MaintainerTenure`) are
`time.Duration` nanosecond counts; commit instants are integer timestamps. -/
structure RepositoryInfo where
  packageName : String
  gitURL : String
  firstCommit : Int
  lastCommit : Int
  commitCount : Int
  maintainer : String
  contributors : List String
  repoAge : Int
  commitFrequency : Rat
  maintainerTenure : Int
deriving DecidableEq, Repr

/-- `trust.MaintainerReputation`. -/
structure MaintainerReputation where
  username : String
  packageCount : Int
  accountAge : Int
  averageRepoAge : Int
  totalCommits : Int
  lastActivity : Int
  reputationScore : Rat
deriving DecidableEq, Repr

/-- `trust.TrustFactor`.  The formatted numeric parts of the source's
`Description` strings are display-only and elided here. -/
structure TrustFactor where
  type : String
  description : String
  weight : Rat
deriving DecidableEq, Repr

/-- `trust.RiskIndicator`. -/
structure RiskIndicator where
  type : String
  severity : SecurityEntropy
  description : String
  impact : Rat
deriving DecidableEq, Repr

/-- `trust.TrustScore`: ordinal enum `TrustVeryLow = 0` .. `TrustVeryHigh = 4`. -/
inductive TrustScore where
  | veryLow
  | low
  | medium
  | high
  | veryHigh
deriving DecidableEq, Repr

/-- The integer value of the Go `TrustScore` constant. -/
def TrustScore.toNat : TrustScore → Nat
  | .veryLow => 0
  | .low => 1
  | .medium => 2
  | .high => 3
  | .veryHigh => 4

/-- `calculateTrustFactors`: the positive indicators, appended in source
order.  `sixMonthsAgo` stands for the source's
`time.Now().AddDate(0, -6, 0)` instant. -/
def calculateTrustFactors (repo : RepositoryInfo) (maintainer : MaintainerReputation)
    (sixMonthsAgo : Int) : List TrustFactor :=
  (if repo.repoAge > 365 * nsPerDay then
    [{ type := "repository_age", description := "Repository has existed for years",
       weight := 0.3 }] else []) ++
  (if repo.commitFrequency > 1 ∧ repo.commitFrequency < 20 then
    [{ type := "commit_frequency", description := "Regular update pattern",
       weight := 0.2 }] else []) ++
  (if repo.contributors.length > 1 then
    [{ type := "multiple_contributors", description := "Multiple contributors",
       weight := 0.15 }] else []) ++
  (if maintainer.reputationScore > 0.7 then
    [{ type := "maintainer_reputation", description := "High maintainer reputation",
       weight := 0.25 }] else []) ++
  (if repo.repoAge > 180 * nsPerDay ∧ ¬ repo.lastCommit < sixMonthsAgo then
    [{ type := "long_term_maintenance",
       description := "Package has been maintained long-term with recent activity",
       weight := 0.2 }] else [])

/-- `calculateRiskIndicators`: the negative indicators, appended in source
order.  `twoYearsAgo` stands for the source's
`time.Now().AddDate(-2, 0, 0)` instant. -/
def calculateRiskIndicators (repo : RepositoryInfo) (maintainer : MaintainerReputation)
    (twoYearsAgo : Int) : List RiskIndicator :=
  (if repo.repoAge < 7 * nsPerDay then
    [{ type := "very_new_repository", severity := SecurityHigh,
       description := "Repository created only days ago", impact := 0.4 }]
   else if repo.repoAge < 30 * nsPerDay then
    [{ type := "new_repository", severity := SecurityMedium,
       description := "Repository created days ago", impact := 0.2 }]
   else []) ++
  (if repo.commitCount = 1 then
    [{ type := "single_commit", severity := SecurityMedium,
       description := "Package has only one commit", impact := 0.3 }] else []) ++
  (if repo.lastCommit < twoYearsAgo then
    [{ type := "abandoned_package", severity := SecurityLow,
       description := "No updates for years", impact := 0.15 }] else []) ++
  (if maintainer.reputationScore < 0.3 ∧ maintainer.accountAge < 90 * nsPerDay then
    [{ type := "new_low_reputation_maintainer", severity := SecurityMedium,
       description := "New maintainer with low reputation score", impact := 0.25 }] else []) ++
  (if repo.commitFrequency > 50 then
    [{ type := "excessive_commits", severity := SecurityLow,
       description := "Unusually high commit frequency", impact := 0.1 }] else [])

/-- The clamp-to-`[0,1]` step of `calculateOverallTrustScore`. -/
def clampUnit (r : Rat) : Rat :=
  if r < 0 then 0 else if r > 1 then 1 else r

/-- The fixed-breakpoint discretization step of `calculateOverallTrustScore`. -/
def scoreToTrust (r : Rat) : TrustScore :=
  if r < 0.2 then .veryLow
  else if r < 0.4 then .low
  else if r < 0.6 then .medium
  else if r < 0.8 then .high
  else .veryHigh

/-- `calculateOverallTrustScore`: neutral baseline 0.5, add each factor's
weight scaled by 0.5, subtract each indicator's impact, clamp to `[0,1]`,
discretize. -/
def calculateOverallTrustScore (factors : List TrustFactor)
    (indicators : List RiskIndicator) : TrustScore :=
  scoreToTrust (clampUnit
    ((indicators.foldl (fun acc i => acc - i.impact)
      (factors.foldl (fun acc f => acc + f.weight * 0.5) 0.5))))

lemma foldl_add_half_weight (l : List TrustFactor) (init : Rat) :
    l.foldl (fun acc f => acc + f.weight * 0.5) init
      = init + (l.map TrustFactor.weight).sum * 0.5 := by
  induction l generalizing init with
  | nil => simp
  | cons x xs ih => simp [ih, List.sum_cons]; ring

lemma foldl_sub_impact (l : List RiskIndicator) (init : Rat) :
    l.foldl (fun acc i => acc - i.impact) init
      = init - (l.map RiskIndicator.impact).sum := by
  induction l generalizing init with
  | nil => simp
  | cons x xs ih => simp [ih, List.sum_cons]; ring

lemma clampUnit_mono {r s : Rat} (h : r ≤ s) : clampUnit r ≤ clampUnit s := by
  unfold clampUnit
  split_ifs <;> linarith

lemma scoreToTrust_mono {r s : Rat} (h : r ≤ s) :
    (scoreToTrust r).toNat ≤ (scoreToTrust s).toNat := by
  unfold scoreToTrust
  split_ifs <;> simp only [TrustScore.toNat] <;> first | omega | (exfalso; linarith)

/-- **C8.** Holding every other repository-metadata input fixed, raising the
repository age from 5 days to 400 days never decreases the trust score
computed by `calculateOverallTrustScore` from the trust factors and risk
indicators derived from that metadata. -/
theorem trustScore_age_5d_to_400d_monotone (repo : RepositoryInfo)
    (maintainer : MaintainerReputation) (sixMonthsAgo twoYearsAgo : Int) :
    (calculateOverallTrustScore
        (calculateTrustFactors { repo with repoAge := 5 * nsPerDay } maintainer sixMonthsAgo)
        (calculateRiskIndicators { repo with repoAge := 5 * nsPerDay } maintainer twoYearsAgo)).toNat ≤
    (calculateOverallTrustScore
        (calculateTrustFactors { repo with repoAge := 400 * nsPerDay } maintainer sixMonthsAgo)
        (calculateRiskIndicators { repo with repoAge := 400 * nsPerDay } maintainer twoYearsAgo)).toNat := by
  unfold calculateOverallTrustScore
  apply scoreToTrust_mono
  apply clampUnit_mono
  rw [foldl_sub_impact, foldl_sub_impact, foldl_add_half_weight, foldl_add_half_weight]
  unfold calculateTrustFactors calculateRiskIndicators
  have hage5 : ¬ ((5 * nsPerDay : Int) > 365 * nsPerDay) := by norm_num [nsPerDay]
  have hage5' : ¬ ((5 * nsPerDay : Int) > 180 * nsPerDay) := by norm_num [nsPerDay]
  have hage5'' : (5 * nsPerDay : Int) < 7 * nsPerDay := by norm_num [nsPerDay]
  have hage400 : (400 * nsPerDay : Int) > 365 * nsPerDay := by norm_num [nsPerDay]
  have hage400' : (400 * nsPerDay : Int) > 180 * nsPerDay := by norm_num [nsPerDay]
  have hage400'' : ¬ ((400 * nsPerDay : Int) < 7 * nsPerDay) := by norm_num [nsPerDay]
  have hage400''' : ¬ ((400 * nsPerDay : Int) < 30 * nsPerDay) := by norm_num [nsPerDay]
  simp only [hage5, hage5', hage5'', hage400, hage400', hage400'', hage400''',
    if_true, if_false, false_and, true_and, if_pos, if_neg, not_false_eq_true,
    List.map_append, List.sum_append, apply_ite (List.map TrustFactor.weight),
    apply_ite (List.map RiskIndicator.impact), apply_ite List.sum,
    List.map_cons, List.map_nil, List.sum_cons, List.sum_nil]
  have h5 : (0 : Rat) ≤ if ¬ repo.lastCommit < sixMonthsAgo then (0.2 : Rat) + 0 else 0 := by
    split <;> norm_num
  have h2 : (0 : Rat) ≤
      if repo.commitFrequency > 1 ∧ repo.commitFrequency < 20 then (0.2 : Rat) + 0 else 0 := by
    split <;> norm_num
  linarith

/-- Witness for C8 at a fully concrete metadata record (the statement's
binders instantiated; the theorem has no further hypotheses). -/
theorem trustScore_age_5d_to_400d_monotone_witness :
    (calculateOverallTrustScore
        (calculateTrustFactors
          { packageName := "demo", gitURL := "", firstCommit := 0, lastCommit := 100,
            commitCount := 1, maintainer := "m", contributors := ["m"],
            repoAge := 5 * nsPerDay, commitFrequency := 2, maintainerTenure := 0 }
          { username := "m", packageCount := 1, accountAge := 0, averageRepoAge := 0,
            totalCommits := 1, lastActivity := 0, reputationScore := 0.5 } 50)
        (calculateRiskIndicators
          { packageName := "demo", gitURL := "", firstCommit := 0, lastCommit := 100,
            commitCount := 1, maintainer := "m", contributors := ["m"],
            repoAge := 5 * nsPerDay, commitFrequency := 2, maintainerTenure := 0 }
          { username := "m", packageCount := 1, accountAge := 0, averageRepoAge := 0,
            totalCommits := 1, lastActivity := 0, reputationScore := 0.5 } 50)).toNat ≤
    (calculateOverallTrustScore
        (calculateTrustFactors
          { packageName := "demo", gitURL := "", firstCommit := 0, lastCommit := 100,
            commitCount := 1, maintainer := "m", contributors := ["m"],
            repoAge := 400 * nsPerDay, commitFrequency := 2, maintainerTenure := 0 }
          { username := "m", packageCount := 1, accountAge := 0, averageRepoAge := 0,
            totalCommits := 1, lastActivity := 0, reputationScore := 0.5 } 50)
        (calculateRiskIndicators
          { packageName := "demo", gitURL := "", firstCommit := 0, lastCommit := 100,
            commitCount := 1, maintainer := "m", contributors := ["m"],
            repoAge := 400 * nsPerDay, commitFrequency := 2, maintainerTenure := 0 }
          { username := "m", packageCount := 1, accountAge := 0, averageRepoAge := 0,
            totalCommits := 1, lastActivity := 0, reputationScore := 0.5 } 50)).toNat :=
  trustScore_age_5d_to_400d_monotone
    { packageName := "demo", gitURL := "", firstCommit := 0, lastCommit := 100,
      commitCount := 1, maintainer := "m", contributors := ["m"],
      repoAge := 5 * nsPerDay, commitFrequency := 2, maintainerTenure := 0 }
    { username := "m", packageCount := 1, accountAge := 0, averageRepoAge := 0,
      totalCommits := 1, lastActivity := 0, reputationScore := 0.5 } 50 50

/-! ## The on-disk JSON cache format (`internal/cache/cache.go`)

A JSON value AST.  Go's `encoding/json` serializes to text; the text layer
is a bijection onto this AST for the values produced here (`MarshalIndent`
output parses back to the same value), so the file contents are modelled as
AST values.  `time.Time` fields marshal as RFC3339 strings carrying the
instant; instants are modelled as integers, and their JSON image keeps that
integer (the RFC3339 rendering is injective on instants). -/

inductive Json where
  | null
  | bool (b : Bool)
  | num (q : Rat)
  | str (s : String)
  | arr (elems : List Json)
  | obj (fields : List (String × Json))

/-- JSON object field lookup, as `encoding/json` matches keys to struct
tags (our encoders emit the exact tag, so the exact-match case applies). -/
def getField (kvs : List (String × Json)) (key : String) : Option Json :=
  (kvs.find? (fun kv => kv.1 == key)).map (fun kv => kv.2)

/-- Unmarshal a string field: a missing key or `null` leaves the Go zero
value `""`; a non-string value is a type error. -/
def asString : Option Json → Except String String
  | none => .ok ""
  | some .null => .ok ""
  | some (.str s) => .ok s
  | some _ => .error "cannot unmarshal into field of type string"

/-- Unmarshal an integer field: a missing key or `null` leaves `0`; a
non-integral number or other value is a type error. -/
def asInt : Option Json → Except String Int
  | none => .ok 0
  | some .null => .ok 0
  | some (.num q) => if q.den = 1 then .ok q.num else .error "cannot unmarshal into field of type int"
  | some _ => .error "cannot unmarshal into field of type int"

/-- Unmarshal a `float64` field: a missing key or `null` leaves `0`. -/
def asRat : Option Json → Except String Rat
  | none => .ok 0
  | some .null => .ok 0
  | some (.num q) => .ok q
  | some _ => .error "cannot unmarshal into field of type float64"

lemma exceptOk_bind {α β : Type} (a : α) (f : α → Except String β) :
    (Except.ok a >>= f) = f a := rfl

def mapExcept (f : α → Except String β) : List α → Except String (List β)
  | [] => .ok []
  | x :: xs => do
    let y ← f x
    let ys ← mapExcept f xs
    .ok (y :: ys)

/-- Unmarshal a `[]string` field: a missing key or `null` leaves the nil
slice (the empty list). -/
def asStringList : Option Json → Except String (List String)
  | none => .ok []
  | some .null => .ok []
  | some (.arr xs) =>
    mapExcept (fun j => match j with
      | Json.str s => .ok s
      | Json.null => .ok ""
      | _ => .error "cannot unmarshal into field of type string") xs
  | some _ => .error "cannot unmarshal into field of type []string"

/-- `omitempty` on a string tag: the empty string is omitted. -/
def encodeOmitStr (key s : String) : List (String × Json) :=
  if s = "" then [] else [(key, .str s)]

/-- `omitempty` on an int tag: zero is omitted. -/
def encodeOmitInt (key : String) (i : Int) : List (String × Json) :=
  if i = 0 then [] else [(key, .num (i : Rat))]

/-- `omitempty` on a float64 tag: zero is omitted. -/
def encodeOmitRat (key : String) (q : Rat) : List (String × Json) :=
  if q = 0 then [] else [(key, .num q)]

/-- `omitempty` on a slice tag: an empty slice is omitted. -/
def encodeOmitStrList (key : String) (l : List String) : List (String × Json) :=
  if l = [] then [] else [(key, .arr (l.map Json.str))]

/-- Marshal of `types.SecurityFinding` following its json tags, in struct
field order. -/
def encodeFinding (f : SecurityFinding) : Json :=
  .obj ([("type", .str f.type),
         ("entropy", .num (f.entropy : Rat)),
         ("severity", .num (f.severity : Rat)),
         ("description", .str f.description)]
    ++ encodeOmitInt "line_number" f.lineNumber
    ++ encodeOmitStr "context" f.context
    ++ encodeOmitStr "suggestion" f.suggestion
    ++ encodeOmitStr "entropy_notes" f.entropyNotes)

/-- The Go zero value of `SecurityFinding`. -/
def zeroFinding : SecurityFinding :=
  { type := "", entropy := 0, severity := 0, description := "",
    lineNumber := 0, context := "", suggestion := "", entropyNotes := "" }

/-- Unmarshal of `types.SecurityFinding`. -/
def decodeFinding : Option Json → Except String SecurityFinding
  | none => .ok zeroFinding
  | some .null => .ok zeroFinding
  | some (.obj kvs) => do
    let t ← asString (getField kvs "type")
    let e ← asInt (getField kvs "entropy")
    let sev ← asInt (getField kvs "severity")
    let d ← asString (getField kvs "description")
    let ln ← asInt (getField kvs "line_number")
    let c ← asString (getField kvs "context")
    let sg ← asString (getField kvs "suggestion")
    let en ← asString (getField kvs "entropy_notes")
    .ok { type := t, entropy := e, severity := sev, description := d,
          lineNumber := ln, context := c, suggestion := sg, entropyNotes := en }
  | some _ => .error "cannot unmarshal into SecurityFinding"

/-- Unmarshal a `[]SecurityFinding` field: a missing key or `null` leaves
the nil slice. -/
def asFindings : Option Json → Except String (List SecurityFinding)
  | none => .ok []
  | some .null => .ok []
  | some (.arr xs) => mapExcept (fun j => decodeFinding (some j)) xs
  | some _ => .error "cannot unmarshal into field of type []SecurityFinding"

/-- Marshal of `types.SecurityAnalysis` following its json tags, in struct
field order. -/
def encodeAnalysis (a : SecurityAnalysis) : Json :=
  .obj ([("package_name", .str a.packageName),
         ("overall_entropy", .num (a.overallEntropy : Rat)),
         ("overall_level", .num (a.overallLevel : Rat)),
         ("findings", .arr (a.findings.map encodeFinding)),
         ("summary", .str a.summary),
         ("recommendation", .str a.recommendation),
         ("analyzed_at", .num (a.analyzedAt : Rat)),
         ("provider", .str a.provider)]
    ++ encodeOmitStrList "entropy_factors" a.entropyFactors
    ++ encodeOmitRat "predictability_score" a.predictabilityScore
    ++ encodeOmitStr "educational_summary" a.educationalSummary
    ++ encodeOmitStrList "security_lessons" a.securityLessons)

/-- Unmarshal of `types.SecurityAnalysis`. -/
def decodeAnalysis : Option Json → Except String SecurityAnalysis
  | none => .error "analysis missing"
  | some (.obj kvs) => do
    let pn ← asString (getField kvs "package_name")
    let oe ← asInt (getField kvs "overall_entropy")
    let ol ← asInt (getField kvs "overall_level")
    let fnd ← asFindings (getField kvs "findings")
    let sm ← asString (getField kvs "summary")
    let rc ← asString (getField kvs "recommendation")
    let at_ ← asInt (getField kvs "analyzed_at")
    let pv ← asString (getField kvs "provider")
    let ef ← asStringList (getField kvs "entropy_factors")
    let ps ← asRat (getField kvs "predictability_score")
    let es ← asString (getField kvs "educational_summary")
    let sl ← asStringList (getField kvs "security_lessons")
    .ok { packageName := pn, overallEntropy := oe, overallLevel := ol,
          findings := fnd, summary := sm, recommendation := rc,
          analyzedAt := at_, provider := pv, entropyFactors := ef,
          predictabilityScore := ps, educationalSummary := es,
          securityLessons := sl }
  | some _ => .error "cannot unmarshal into SecurityAnalysis"

/-- `cache.CacheMetadata`. -/
structure CacheMetadata where
  commitHash : String
  packageName : String
  cachedAt : Int
  cacheVersion : String
  yayFriendVersion : String
deriving DecidableEq, Repr

/-- Marshal of `cache.CacheMetadata` (no `omitempty` tags). -/
def encodeMetadata (m : CacheMetadata) : Json :=
  .obj [("commit_hash", .str m.commitHash),
        ("package_name", .str m.packageName),
        ("cached_at", .num (m.cachedAt : Rat)),
        ("cache_version", .str m.cacheVersion),
        ("yay_friend_version", .str m.yayFriendVersion)]

/-- Unmarshal of `cache.CacheMetadata`. -/
def decodeMetadata : Option Json → Except String CacheMetadata
  | none => .ok { commitHash := "", packageName := "", cachedAt := 0,
                  cacheVersion := "", yayFriendVersion := "" }
  | some .null => .ok { commitHash := "", packageName := "", cachedAt := 0,
                        cacheVersion := "", yayFriendVersion := "" }
  | some (.obj kvs) => do
    let ch ← asString (getField kvs "commit_hash")
    let pn ← asString (getField kvs "package_name")
    let ca ← asInt (getField kvs "cached_at")
    let cv ← asString (getField kvs "cache_version")
    let yv ← asString (getField kvs "yay_friend_version")
    .ok { commitHash := ch, packageName := pn, cachedAt := ca,
          cacheVersion := cv, yayFriendVersion := yv }
  | some _ => .error "cannot unmarshal into CacheMetadata"

/-- `cache.CachedAnalysis`.  `Analysis` is a pointer in Go; every record
this component writes carries a non-nil analysis, modelled as a value. -/
structure CachedAnalysis where
  cacheMetadata : CacheMetadata
  analysis : SecurityAnalysis
deriving Repr

/-- Marshal of `cache.CachedAnalysis`. -/
def encodeCachedAnalysis (c : CachedAnalysis) : Json :=
  .obj [("cache_metadata", encodeMetadata c.cacheMetadata),
        ("analysis", encodeAnalysis c.analysis)]

/-- Unmarshal of `cache.CachedAnalysis`. -/
def decodeCachedAnalysis : Option Json → Except String CachedAnalysis
  | none => .error "no data"
  | some (.obj kvs) => do
    let m ← decodeMetadata (getField kvs "cache_metadata")
    let a ← decodeAnalysis (getField kvs "analysis")
    .ok { cacheMetadata := m, analysis := a }
  | some _ => .error "cannot unmarshal into CachedAnalysis"

lemma decodeFinding_encodeFinding (f : SecurityFinding) :
    decodeFinding (some (encodeFinding f)) = .ok f := by
  rcases f with ⟨t, e, sev, d, ln, c, sg, en⟩
  by_cases h1 : ln = 0 <;> by_cases h2 : c = "" <;>
    by_cases h3 : sg = "" <;> by_cases h4 : en = "" <;>
    simp [encodeFinding, decodeFinding, encodeOmitInt, encodeOmitStr, getField,
      asString, asInt, h1, h2, h3, h4, List.find?, exceptOk_bind]

lemma mapExcept_decodeFinding (fs : List SecurityFinding) :
    mapExcept (fun j => decodeFinding (some j)) (fs.map encodeFinding) = .ok fs := by
  induction fs with
  | nil => rfl
  | cons f fs ih => simp [mapExcept, decodeFinding_encodeFinding, ih, exceptOk_bind]

lemma mapExcept_str (l : List String) :
    mapExcept (fun j => match j with
      | Json.str s => Except.ok s
      | Json.null => Except.ok ""
      | _ => Except.error "cannot unmarshal into field of type string")
      (l.map Json.str) = .ok l := by
  induction l with
  | nil => rfl
  | cons s l ih => simp [mapExcept, ih, exceptOk_bind]

lemma asStringList_encode (l : List String) :
    asStringList (some (.arr (l.map Json.str))) = .ok l := by
  simp [asStringList, mapExcept_str]

lemma decodeAnalysis_encodeAnalysis (a : SecurityAnalysis) :
    decodeAnalysis (some (encodeAnalysis a)) = .ok a := by
  rcases a with ⟨pn, oe, ol, fnd, sm, rc, at_, pv, ef, ps, es, sl⟩
  by_cases h1 : ef = ([] : List String) <;> by_cases h2 : ps = (0 : Rat) <;>
    by_cases h3 : es = "" <;> by_cases h4 : sl = ([] : List String) <;>
    simp [encodeAnalysis, decodeAnalysis, encodeOmitStrList, encodeOmitRat,
      encodeOmitStr, getField, asString, asInt, asRat, asFindings,
      mapExcept_decodeFinding, mapExcept_str, asStringList_encode, asStringList,
      h1, h2, h3, h4, List.find?, exceptOk_bind]

lemma decodeMetadata_encodeMetadata (m : CacheMetadata) :
    decodeMetadata (some (encodeMetadata m)) = .ok m := by
  rcases m with ⟨ch, pn, ca, cv, yv⟩
  simp [encodeMetadata, decodeMetadata, getField, asString, asInt,
    List.find?, exceptOk_bind]

lemma decodeCachedAnalysis_encodeCachedAnalysis (c : CachedAnalysis) :
    decodeCachedAnalysis (some (encodeCachedAnalysis c)) = .ok c := by
  rcases c with ⟨m, a⟩
  simp [encodeCachedAnalysis, decodeCachedAnalysis, getField, List.find?,
    decodeMetadata_encodeMetadata, decodeAnalysis_encodeAnalysis, exceptOk_bind]

/-! ## Cache store operations (`internal/cache/cache.go`)

The cache directory tree is modelled as a flat list of files (the walk in
`CleanExpiredCache` visits exactly the files); each file carries its path,
its modification time and its JSON content. -/

structure FileEntry where
  path : String
  modTime : Int
  content : Json

abbrev FileSystem := List FileEntry

def readFile (fs : FileSystem) (path : String) : Option Json :=
  (fs.find? (fun e => e.path == path)).map FileEntry.content

/-- `os.WriteFile`: create or truncate; the file's modification time becomes
the write instant. -/
def writeFile (fs : FileSystem) (path : String) (modTime : Int) (content : Json) :
    FileSystem :=
  { path := path, modTime := modTime, content := content } ::
    fs.filter (fun e => e.path != path)

/-- `sanitizePackageName`: replace the path-unsafe characters
`/ \ : * ? " < > | ` (and space) with underscores. -/
def isPathUnsafe (c : Char) : Bool :=
  c == '/' || c == '\\' || c == ':' || c == '*' || c == '?' ||
  c == '"' || c == '<' || c == '>' || c == '|' || c == ' '

def sanitizePackageName (packageName : String) : String :=
  String.mk (packageName.data.map (fun c => if isPathUnsafe c then '_' else c))

/-- `getCacheFilePath`: `filepath.Join(cacheDir, sanitized, commitHash + ".json")`. -/
def getCacheFilePath (cacheDir packageName commitHash : String) : String :=
  cacheDir ++ "/" ++ sanitizePackageName packageName ++ "/" ++ commitHash ++ ".json"

/-- Result of `GetCachedAnalysis`: the Go function returns
`(*types.SecurityAnalysis, error)`; `panicked` marks a Go runtime panic. -/
inductive CacheResult where
  | hit (analysis : SecurityAnalysis)
  | err (msg : String)
  | panicked (msg : String)
deriving DecidableEq, Repr

/-- `GetCachedAnalysis`: stat the cache file, read it, unmarshal, then
re-validate the embedded commit hash.  The miss-path error message slices
`commitHash[:8]`, which panics in Go when the identifier is shorter than
8 bytes.  The function performs no writes or removals, which the returned
(unchanged) file system records. -/
def GetCachedAnalysis (cacheDir : String) (fs : FileSystem)
    (packageName commitHash : String) : CacheResult × FileSystem :=
  match readFile fs (getCacheFilePath cacheDir packageName commitHash) with
  | none =>
    if commitHash.length < 8 then
      (.panicked "runtime error: slice bounds out of range", fs)
    else
      (.err ("cache miss: no cached analysis found for " ++ packageName ++ "@"
          ++ commitHash.take 8), fs)
  | some data =>
    match decodeCachedAnalysis (some data) with
    | .error e => (.err ("failed to parse cached analysis: " ++ e), fs)
    | .ok cached =>
      if cached.cacheMetadata.commitHash ≠ commitHash then
        (.err "cache corruption: commit hash mismatch", fs)
      else
        (.hit cached.analysis, fs)

/-- `SaveAnalysis`: create the package partition (`MkdirAll`, a no-op on
this file model), stamp the metadata (`CachedAt = time.Now()`,
`CacheVersion = "1.0"`, `YayFriendVersion = "1.0.0"`), marshal and write. -/
def SaveAnalysis (cacheDir : String) (fs : FileSystem)
    (packageName commitHash : String) (analysis : SecurityAnalysis) (now : Int) :
    FileSystem :=
  writeFile fs (getCacheFilePath cacheDir packageName commitHash) now
    (encodeCachedAnalysis
      { cacheMetadata :=
          { commitHash := commitHash, packageName := packageName, cachedAt := now,
            cacheVersion := "1.0", yayFriendVersion := "1.0.0" }
        analysis := analysis })

/-- Go `strings.HasSuffix`, computed structurally over the characters. -/
def goHasSuffix (s suffix : String) : Bool :=
  suffix.data.isSuffixOf s.data

/-- The removal condition of `CleanExpiredCache`: a `.json` file whose
modification time is strictly before the cutoff (`info.ModTime().Before`). -/
def expiredJson (cutoffTime : Int) (e : FileEntry) : Bool :=
  goHasSuffix e.path ".json" && e.modTime < cutoffTime

/-- `CleanExpiredCache`: walk the cache directory, remove every `.json`
file older than `now - maxAge`, and report the removed count. -/
def CleanExpiredCache (fs : FileSystem) (now maxAge : Int) : FileSystem × Nat :=
  (fs.filter (fun e => ! expiredJson (now - maxAge) e),
   (fs.filter (expiredJson (now - maxAge))).length)

/-- Outcome of the cache-consultation slice of `analyzeAndDecide`
(`internal/cmd/root.go` lines 256–292): which verdict flows on to the gate,
whether the external analysis capability ran, and the resulting cache
state. -/
structure CacheStepResult where
  analysis : SecurityAnalysis
  ranFreshAnalysis : Bool
  fs : FileSystem

/-- The cache-consultation slice of `analyzeAndDecide`: when caching is
enabled and a commit hash is known, probe the cache; on a hit use the cached
verdict, otherwise (miss or any cache error) run the fresh analysis and save
it.  Both branches print `pkgInfo.CommitHash[:8]`, which panics (`none`) for
a non-empty identifier shorter than 8 bytes. -/
def analyzeCacheStep (cacheEnabled : Bool) (cacheDir : String) (fs : FileSystem)
    (packageName commitHash : String) (freshAnalysis : SecurityAnalysis)
    (now : Int) : Option CacheStepResult :=
  if cacheEnabled ∧ commitHash ≠ "" then
    match GetCachedAnalysis cacheDir fs packageName commitHash with
    | (.hit a, fs1) =>
      if commitHash.length < 8 then none
      else some { analysis := a, ranFreshAnalysis := false, fs := fs1 }
    | (.panicked _, _) => none
    | (.err _, fs1) =>
      if commitHash.length < 8 then none
      else some { analysis := freshAnalysis, ranFreshAnalysis := true,
                  fs := SaveAnalysis cacheDir fs1 packageName commitHash freshAnalysis now }
  else
    some { analysis := freshAnalysis, ranFreshAnalysis := true, fs := fs }

/-- **C2.** For every key pair (packageName, contentIdentifier) and every
verdict, `SaveAnalysis` followed by `GetCachedAnalysis` with the same keys
returns exactly the inserted verdict, through the JSON file format. -/
theorem saveAnalysis_getCachedAnalysis_roundtrip (cacheDir : String) (fs : FileSystem)
    (packageName commitHash : String) (analysis : SecurityAnalysis) (now : Int) :
    (GetCachedAnalysis cacheDir
        (SaveAnalysis cacheDir fs packageName commitHash analysis now)
        packageName commitHash).1 = .hit analysis := by
  unfold GetCachedAnalysis SaveAnalysis writeFile readFile
  simp [List.find?, decodeCachedAnalysis_encodeCachedAnalysis]

/-- **C3** exhibit.  `GetCachedAnalysis` on a never-inserted key whose
identifier is shorter than 8 bytes panics while formatting the miss message
(Go `commitHash[:8]` slice out of range) instead of returning the miss
error: evaluated on the empty store at package "foo" and identifier "abc". -/
theorem getCachedAnalysis_short_identifier_panics :
    GetCachedAnalysis "cache" [] "foo" "abc"
      = (.panicked "runtime error: slice bounds out of range", []) := rfl

/-- **C6.** If the stored record's embedded commit hash differs from the
requested identifier, `GetCachedAnalysis` does not return a hit but the
cache-corruption error, it leaves the file system untouched, and the
`analyzeAndDecide` caller treats the result exactly like a miss: the fresh
analysis runs and flows onward. -/
theorem getCachedAnalysis_corruption_is_miss (cacheDir : String) (fs : FileSystem)
    (packageName commitHash : String) (cached : CachedAnalysis)
    (freshAnalysis : SecurityAnalysis) (now : Int)
    (hlen : 8 ≤ commitHash.length)
    (hread : readFile fs (getCacheFilePath cacheDir packageName commitHash)
        = some (encodeCachedAnalysis cached))
    (hmismatch : cached.cacheMetadata.commitHash ≠ commitHash) :
    GetCachedAnalysis cacheDir fs packageName commitHash
        = (.err "cache corruption: commit hash mismatch", fs) ∧
    analyzeCacheStep true cacheDir fs packageName commitHash freshAnalysis now
        = some { analysis := freshAnalysis, ranFreshAnalysis := true,
                 fs := SaveAnalysis cacheDir fs packageName commitHash freshAnalysis now } := by
  have hres : GetCachedAnalysis cacheDir fs packageName commitHash
      = (.err "cache corruption: commit hash mismatch", fs) := by
    unfold GetCachedAnalysis
    rw [hread]
    simp [decodeCachedAnalysis_encodeCachedAnalysis, hmismatch]
  refine ⟨hres, ?_⟩
  have hne : commitHash ≠ "" := by
    intro h
    rw [h] at hlen
    simp at hlen
  unfold analyzeCacheStep
  rw [if_pos ⟨rfl, hne⟩, hres]
  simp
  omega

/-- A record whose embedded identifier ("bbbb...", 40 b's) disagrees with
its key ("aaaa...", 40 a's), used to instantiate C6. -/
def corruptedRecord : CachedAnalysis :=
  { cacheMetadata :=
      { commitHash := String.mk (List.replicate 40 'b'), packageName := "foo",
        cachedAt := 0, cacheVersion := "1.0", yayFriendVersion := "1.0.0" }
    analysis := demoAnalysis }

/-- The 40-character identifier under which `corruptedRecord` is filed. -/
def hash40a : String := String.mk (List.replicate 40 'a')

/-- Witness for C6 at a concrete corrupted store. -/
theorem getCachedAnalysis_corruption_is_miss_witness :
    GetCachedAnalysis "cache"
        [{ path := getCacheFilePath "cache" "foo" hash40a, modTime := 0,
           content := encodeCachedAnalysis corruptedRecord }] "foo" hash40a
        = (.err "cache corruption: commit hash mismatch",
           [{ path := getCacheFilePath "cache" "foo" hash40a, modTime := 0,
              content := encodeCachedAnalysis corruptedRecord }]) ∧
    analyzeCacheStep true "cache"
        [{ path := getCacheFilePath "cache" "foo" hash40a, modTime := 0,
           content := encodeCachedAnalysis corruptedRecord }] "foo" hash40a demoAnalysis 7
        = some { analysis := demoAnalysis, ranFreshAnalysis := true,
                 fs := SaveAnalysis "cache"
                   [{ path := getCacheFilePath "cache" "foo" hash40a, modTime := 0,
                      content := encodeCachedAnalysis corruptedRecord }]
                   "foo" hash40a demoAnalysis 7 } :=
  getCachedAnalysis_corruption_is_miss "cache"
    [{ path := getCacheFilePath "cache" "foo" hash40a, modTime := 0,
       content := encodeCachedAnalysis corruptedRecord }]
    "foo" hash40a corruptedRecord demoAnalysis 7
    (by decide)
    (by simp [readFile, List.find?])
    (by decide)

/-- Counterexample to **C7** as stated: a record saved at the very instant
of pruning survives `CleanExpiredCache` with `maxAge = 0` (the comparison
`info.ModTime().Before(cutoff)` is strict), so pruning with `maxAge = 0`
does not remove every cache record. -/
theorem cleanExpiredCache_zero_leaves_fresh_record :
    (CleanExpiredCache (SaveAnalysis "cache" [] "hello" hash40a demoAnalysis 5) 5 0).2 = 0 ∧
    (CleanExpiredCache (SaveAnalysis "cache" [] "hello" hash40a demoAnalysis 5) 5 0).1.length
      = 1 := by
  constructor <;> rfl

/-- **C7 (amended).** `CleanExpiredCache` deletes exactly those record files
with the `.json` suffix whose modification time is strictly older than
`now - maxAge`, and counts exactly the deleted files (kept + removed = all);
consequently `prune(d)` for `d` at least every record's age removes nothing,
and `prune(0)` removes exactly the records modified strictly before `now`
(one modified at or after `now` survives). -/
theorem cleanExpiredCache_characterization (fs : FileSystem) (now maxAge : Int) :
    (∀ e : FileEntry, e ∈ (CleanExpiredCache fs now maxAge).1 ↔
      (e ∈ fs ∧ ¬ (goHasSuffix e.path ".json" = true ∧ e.modTime < now - maxAge))) ∧
    (CleanExpiredCache fs now maxAge).1.length + (CleanExpiredCache fs now maxAge).2
      = fs.length ∧
    ((∀ e ∈ fs, now - maxAge ≤ e.modTime) → CleanExpiredCache fs now maxAge = (fs, 0)) := by
  refine ⟨?_, ?_, ?_⟩
  · intro e
    simp only [CleanExpiredCache, List.mem_filter]
    apply and_congr_right
    intro _
    cases hgs : goHasSuffix e.path ".json" <;> simp [expiredJson, hgs]
  · simp only [CleanExpiredCache]
    rw [Nat.add_comm]
    exact (List.length_eq_length_filter_add (expiredJson (now - maxAge))).symm
  · intro hall
    unfold CleanExpiredCache
    have hf : ∀ e ∈ fs, expiredJson (now - maxAge) e = false := by
      intro e he
      have := hall e he
      cases hgs : goHasSuffix e.path ".json"
      · simp [expiredJson, hgs]
      · simp [expiredJson, hgs]
        omega
    have h1 : List.filter (fun e => !expiredJson (now - maxAge) e) fs = fs :=
      List.filter_eq_self.mpr (fun e he => by simp [hf e he])
    have h2 : List.filter (expiredJson (now - maxAge)) fs = [] :=
      List.filter_eq_nil_iff.mpr (fun e he => by simp [hf e he])
    rw [h1, h2]
    rfl

/-- Witness for C7 (amended), third conjunct, at a concrete store: a single
record of age 0 survives `prune(10)` untouched with removed count 0. -/
theorem cleanExpiredCache_characterization_witness :
    CleanExpiredCache [{ path := "cache/hello/a.json", modTime := 5, content := Json.null }]
        5 10
      = ([{ path := "cache/hello/a.json", modTime := 5, content := Json.null }], 0) :=
  (cleanExpiredCache_characterization
      [{ path := "cache/hello/a.json", modTime := 5, content := Json.null }] 5 10).2.2
    (by intro e he; simp at he; simp [he])

/-! ## Version resolver (`internal/aur/git.go`) -/

/-- Go `unicode.IsSpace` restricted to the ASCII whitespace relevant to
`git ls-remote` output. -/
def isGoSpace (c : Char) : Bool :=
  c == ' ' || c == '\t' || c == '\n' || c == '\x0b' || c == '\x0c' || c == '\r'

/-- Go `strings.TrimSpace` (ASCII whitespace). -/
def goTrimSpace (s : String) : String :=
  String.mk (((s.data.dropWhile isGoSpace).reverse.dropWhile isGoSpace).reverse)

/-- Go `strings.Split(s, "\n")`: never returns an empty slice. -/
def goSplitLines (s : String) : List String :=
  (s.data.splitOnP (fun c => c == '\n')).map String.mk

/-- Go `strings.Fields`: the maximal runs of non-whitespace characters. -/
def goFields (s : String) : List String :=
  ((s.data.splitOnP isGoSpace).filter (fun l => !l.isEmpty)).map String.mk

/-- `GetLatestCommitHash`, given the outcome of the
`git ls-remote <url> HEAD` invocation (`cmdResult`): parse the first
field of the first output line and validate the identifier format.  The
source validates only `len(commitHash) != 40` here — the hex check in
`ValidateCommitHash` below is not invoked. -/
def GetLatestCommitHash (packageName : String) (cmdResult : Except String String) :
    Except String String :=
  match cmdResult with
  | .error _ => .error ("failed to fetch git commit hash for " ++ packageName)
  | .ok output =>
    match goSplitLines (goTrimSpace output) with
    | [] => .error ("no commit hash found for package " ++ packageName)
    | line :: _ =>
      match goFields line with
      | [] => .error ("invalid git ls-remote output for package " ++ packageName)
      | commitHash :: _ =>
        if commitHash.length ≠ 40 then
          .error ("invalid commit hash format for package " ++ packageName ++ ": " ++ commitHash)
        else
          .ok commitHash

/-- `ValidateCommitHash`: exactly 40 characters, all hexadecimal
(case-insensitive). -/
def ValidateCommitHash (hash : String) : Bool :=
  if hash.length ≠ 40 then false
  else hash.data.all (fun c =>
    ('0' ≤ c && c ≤ '9') || ('a' ≤ c && c ≤ 'f') || ('A' ≤ c && c ≤ 'F'))

/-- 40 repetitions of the non-hexadecimal character 'g'. -/
def gHash40 : String := String.mk (List.replicate 40 'g')

/-- **C4** exhibit.  A remote response whose first field is 40 characters
long but not hexadecimal is returned by `GetLatestCommitHash` as a valid
identifier instead of being rejected: the resolver checks only the length,
never invoking the hex validation that `ValidateCommitHash` (which rejects
the same string) implements. -/
theorem getLatestCommitHash_accepts_non_hex :
    GetLatestCommitHash "foo" (.ok (gHash40 ++ "\tHEAD")) = .ok gHash40 ∧
    ValidateCommitHash gHash40 = false := by
  constructor <;> rfl

/-! ## Verdict conversion (`internal/providers/claude.go`,
`parseAnalysisResponse` lines 234–272)

The unmarshal target of `parseAnalysisResponse` (its anonymous
`analysisData` struct).  The JSON-extraction and `json.Unmarshal` stage is
an I/O-facing front end; every successfully parsed response yields one of
these records, and the claims concern the conversion applied to it. -/

structure AnalysisFindingData where
  type : String
  entropy : String
  severity : String
  description : String
  lineNumber : Int
  context : String
  suggestion : String
  entropyNotes : String
deriving DecidableEq, Repr

structure AnalysisData where
  overallEntropy : String
  overallLevel : String
  entropyFactors : List String
  predictabilityScore : Rat
  findings : List AnalysisFindingData
  summary : String
  recommendation : String
deriving DecidableEq, Repr

/-- The conversion step of `parseAnalysisResponse`: parse the overall
entropy label, falling back to `overall_level` when the entropy label
parses to `EntropyMinimal` and the level label is non-empty; per finding,
parse the entropy label, falling back to the legacy severity label when
the entropy label parses to `EntropyMinimal`; the constructed record
mirrors both severities from the single parsed value. -/
def convertAnalysisData (d : AnalysisData) (pkgName : String) (now : Int) :
    SecurityAnalysis :=
  { packageName := pkgName
    overallEntropy :=
      if parseSecurityEntropy d.overallEntropy = EntropyMinimal ∧ d.overallLevel ≠ "" then
        parseSecurityEntropy d.overallLevel
      else parseSecurityEntropy d.overallEntropy
    overallLevel :=
      if parseSecurityEntropy d.overallEntropy = EntropyMinimal ∧ d.overallLevel ≠ "" then
        parseSecurityEntropy d.overallLevel
      else parseSecurityEntropy d.overallEntropy
    findings := d.findings.map (fun f =>
      { type := f.type
        entropy :=
          if parseSecurityEntropy f.entropy = EntropyMinimal then
            parseSecurityEntropy f.severity
          else parseSecurityEntropy f.entropy
        severity :=
          if parseSecurityEntropy f.entropy = EntropyMinimal then
            parseSecurityEntropy f.severity
          else parseSecurityEntropy f.entropy
        description := f.description
        lineNumber := f.lineNumber
        context := f.context
        suggestion := f.suggestion
        entropyNotes := f.entropyNotes })
    summary := d.summary
    recommendation := d.recommendation
    analyzedAt := now
    provider := "claude"
    entropyFactors := d.entropyFactors
    predictabilityScore := d.predictabilityScore
    educationalSummary := ""
    securityLessons := [] }

/-- The maximum severity among a list of findings (`EntropyMinimal` when
there are none). -/
def maxFindingEntropy (findings : List SecurityFinding) : SecurityEntropy :=
  findings.foldl (fun acc f => max acc f.entropy) EntropyMinimal

/-- A response whose stated overall label under-reports its own findings:
overall "LOW", one finding labelled "CRITICAL". -/
def underReportData : AnalysisData :=
  { overallEntropy := "LOW", overallLevel := "",
    entropyFactors := [], predictabilityScore := 0,
    findings := [{ type := "malicious_download", entropy := "CRITICAL",
                   severity := "CRITICAL", description := "pipes remote script to shell",
                   lineNumber := 10, context := "", suggestion := "", entropyNotes := "" }],
    summary := "", recommendation := "BLOCK" }

/-- Counterexample to **C5** as stated: the verdict the parser constructs
from `underReportData` has overall severity LOW strictly below the CRITICAL
severity of its own finding — the parser copies the response's overall label
and never aggregates over findings. -/
theorem convertAnalysisData_underreports :
    (convertAnalysisData underReportData "evil-pkg" 0).overallLevel
      < maxFindingEntropy (convertAnalysisData underReportData "evil-pkg" 0).findings := by
  decide

lemma foldl_max_le (l : List SecurityFinding) (init b : Int) (hinit : init ≤ b)
    (h : ∀ f ∈ l, f.entropy ≤ b) :
    l.foldl (fun acc f => max acc f.entropy) init ≤ b := by
  induction l generalizing init with
  | nil => simpa using hinit
  | cons f fs ih =>
    exact ih _ (max_le hinit (h f (by simp))) (fun g hg => h g (by simp [hg]))

lemma parseSecurityEntropy_nonneg (s : String) : 0 ≤ parseSecurityEntropy s := by
  unfold parseSecurityEntropy
  split_ifs <;>
    simp [EntropyMinimal, EntropyLow, EntropyModerate, EntropyHigh, EntropyCritical]

/-- **C5 (amended).** The parser does not enforce the invariant; it copies
the response's own labels.  The invariant "overall severity ≥ every finding
severity" holds of the constructed verdict exactly when the response's
labels already satisfy it: whenever each finding's effective parsed level
(with the MINIMAL-fallback to its severity label) is at most the effective
parsed overall level (with the MINIMAL-fallback to `overall_level`), the
constructed verdict satisfies the invariant. -/
theorem convertAnalysisData_invariant_of_input (d : AnalysisData) (pkgName : String)
    (now : Int)
    (h : ∀ f ∈ d.findings,
      (if parseSecurityEntropy f.entropy = EntropyMinimal then
         parseSecurityEntropy f.severity
       else parseSecurityEntropy f.entropy)
      ≤ (if parseSecurityEntropy d.overallEntropy = EntropyMinimal ∧ d.overallLevel ≠ "" then
           parseSecurityEntropy d.overallLevel
         else parseSecurityEntropy d.overallEntropy)) :
    maxFindingEntropy (convertAnalysisData d pkgName now).findings
      ≤ (convertAnalysisData d pkgName now).overallLevel := by
  unfold convertAnalysisData maxFindingEntropy
  simp only []
  apply foldl_max_le
  · split_ifs <;> exact parseSecurityEntropy_nonneg _
  · intro f hf
    simp only [List.mem_map] at hf
    obtain ⟨g, hg, rfl⟩ := hf
    simpa using h g hg

/-- A response with overall "HIGH" and one finding labelled "LOW",
satisfying the invariant. -/
def wellFormedData : AnalysisData :=
  { overallEntropy := "HIGH", overallLevel := "",
    entropyFactors := [], predictabilityScore := 0,
    findings := [{ type := "network_access", entropy := "LOW", severity := "LOW",
                   description := "downloads a pinned source tarball",
                   lineNumber := 3, context := "", suggestion := "", entropyNotes := "" }],
    summary := "", recommendation := "PROCEED" }

/-- Witness for C5 (amended) at `wellFormedData`. -/
theorem convertAnalysisData_invariant_of_input_witness :
    maxFindingEntropy (convertAnalysisData wellFormedData "pkg" 0).findings
      ≤ (convertAnalysisData wellFormedData "pkg" 0).overallLevel :=
  convertAnalysisData_invariant_of_input wellFormedData "pkg" 0 (by decide)

/-- One finding labelled entropy "MINIMAL" with an empty severity label. -/
def minimalEmptySeverityData : AnalysisData :=
  { overallEntropy := "HIGH", overallLevel := "",
    entropyFactors := [], predictabilityScore := 0,
    findings := [{ type := "t", entropy := "MINIMAL", severity := "",
                   description := "", lineNumber := 0, context := "", suggestion := "",
                   entropyNotes := "" }],
    summary := "", recommendation := "" }

/-- One finding labelled entropy "MINIMAL" with severity label "HIGH". -/
def minimalHighSeverityData : AnalysisData :=
  { overallEntropy := "HIGH", overallLevel := "",
    entropyFactors := [], predictabilityScore := 0,
    findings := [{ type := "t", entropy := "MINIMAL", severity := "HIGH",
                   description := "", lineNumber := 0, context := "", suggestion := "",
                   entropyNotes := "" }],
    summary := "", recommendation := "" }

/-- An overall entropy label "MINIMAL" beside a non-empty overall level
label "HIGH". -/
def minimalOverallData : AnalysisData :=
  { overallEntropy := "MINIMAL", overallLevel := "HIGH",
    entropyFactors := [], predictabilityScore := 0, findings := [],
    summary := "", recommendation := "" }

/-- **C10.** In the conversion step, a finding whose entropy label parses to
`EntropyMinimal` takes its recorded level from the parse of its legacy
severity label (so entropy "MINIMAL" with an empty or unrecognized severity
records `EntropyModerate`, never `EntropyMinimal`, and entropy "MINIMAL"
with severity "HIGH" records `EntropyHigh`); likewise an overall entropy
label that parses to `EntropyMinimal` is overridden by the parse of a
non-empty `overall_level`. -/
theorem convertAnalysisData_minimal_fallback (d : AnalysisData) (pkgName : String)
    (now : Int) :
    (∀ (i : Nat) (hi : i < d.findings.length)
        (hi2 : i < (convertAnalysisData d pkgName now).findings.length),
      ((convertAnalysisData d pkgName now).findings.get ⟨i, hi2⟩).entropy
        = (if parseSecurityEntropy (d.findings.get ⟨i, hi⟩).entropy = EntropyMinimal then
             parseSecurityEntropy (d.findings.get ⟨i, hi⟩).severity
           else parseSecurityEntropy (d.findings.get ⟨i, hi⟩).entropy)) ∧
    (parseSecurityEntropy d.overallEntropy = EntropyMinimal → d.overallLevel ≠ "" →
      (convertAnalysisData d pkgName now).overallEntropy
        = parseSecurityEntropy d.overallLevel) ∧
    ((convertAnalysisData minimalEmptySeverityData "p" 0).findings.map
        SecurityFinding.entropy = [EntropyModerate]) ∧
    ((convertAnalysisData minimalHighSeverityData "p" 0).findings.map
        SecurityFinding.entropy = [EntropyHigh]) ∧
    ((convertAnalysisData minimalOverallData "p" 0).overallEntropy = EntropyHigh) := by
  refine ⟨?_, ?_, by decide, by decide, by decide⟩
  · intro i hi hi2
    unfold convertAnalysisData
    simp [List.get_eq_getElem, List.getElem_map]
  · intro h1 h2
    unfold convertAnalysisData
    simp [h1, h2]

/-- Witness for C10: the finding labelled entropy "MINIMAL" with empty
severity is recorded at the parse of "" (that is, `EntropyModerate`), and
the "MINIMAL" overall entropy beside overall level "HIGH" is overridden. -/
theorem convertAnalysisData_minimal_fallback_witness :
    ((convertAnalysisData minimalEmptySeverityData "p" 0).findings.get
        ⟨0, by decide⟩).entropy = EntropyModerate ∧
    (convertAnalysisData minimalOverallData "p" 0).overallEntropy
      = parseSecurityEntropy "HIGH" :=
  ⟨((convertAnalysisData_minimal_fallback minimalEmptySeverityData "p" 0).1 0
      (by decide) (by decide)).trans (by decide),
   (convertAnalysisData_minimal_fallback minimalOverallData "p" 0).2.1
      (by decide) (by decide)⟩

end YayFriend
